import Mathlib

/-!
# Verification of the sndbot identity-resolution and role-reconciliation core

A shallow embedding of the Go sources of the sndbot repository:

* `blizzard/blizzard.go` (the live client variant, the one whose
  `GuildInfo` carries `Name`/`Rank int`/`Faction` and which implements
  `GetGuildMemberInfo`): the token manager (`getAccessToken`), the
  character-profile lookup (`GetCharacterGuild`), the roster lookup
  (`GetGuildMemberInfo`) and their composition (`GetGuildInfo`).
* `bot/bot.go`: the role reconciler (`hasAnyRole`, `updateMemberRoles`).

HTTP is modelled by an oracle value describing the outcome of each remote
request (transport failure, body-read failure, or a status code together
with the parse outcome of the body).  Time is modelled as `Int` seconds.
Each embedded operation additionally returns the list of remote calls it
performed, so that call-avoidance properties can be stated.
-/

namespace Sndbot

/-! ## Identifier normalization

Go: `strings.ToLower(strings.ReplaceAll(strings.TrimSpace(s), " ", "-"))`,
inlined at every realm/guild slug conversion site of `blizzard.go`.  The
three library functions are embedded as structural recursions over the
string's character list (ASCII case folding and ASCII whitespace, the
fragment relevant to realm, guild and character names). -/

/-- ASCII lower-casing of one character (`strings.ToLower`, charwise). -/
def charLower (c : Char) : Char :=
  if c.toNat ≥ 65 ∧ c.toNat ≤ 90 then Char.ofNat (c.toNat + 32) else c

/-- Whitespace as trimmed by `strings.TrimSpace`. -/
def isSpaceChar (c : Char) : Bool :=
  c == ' ' || c == '\t' || c == '\n' || c == '\r'

/-- `strings.ToLower`. -/
def toLowerStr (s : String) : String :=
  ⟨s.data.map charLower⟩

/-- `strings.TrimSpace`: drop whitespace from both ends. -/
def trimStr (s : String) : String :=
  ⟨((s.data.dropWhile isSpaceChar).reverse.dropWhile isSpaceChar).reverse⟩

/-- `strings.ReplaceAll(s, " ", "-")`: the pattern is one character, so
this is a charwise map. -/
def replaceSpaces (s : String) : String :=
  ⟨s.data.map (fun c => if c == ' ' then '-' else c)⟩

/-- Slug conversion: trim surrounding whitespace, replace spaces with
hyphens, lower-case. -/
def slugify (s : String) : String :=
  toLowerStr (replaceSpaces (trimStr s))

/-! ## Role reconciler (`bot/bot.go`) -/

/-- The two configuration fields of `config.Config` that
`updateMemberRoles` reads. -/
structure BotConfig where
  communityRoleID : String
  guildMemberRoleIDs : List String
deriving DecidableEq

/-- String membership in a role list.  Go expresses this either as a
direct loop (`for _, role := range member.Roles`) or as a lookup in a map
built from the list; both are equality membership. -/
def roleListContains (roles : List String) (r : String) : Bool :=
  roles.any (fun x => x == r)

/-- `hasAnyRole` from `bot/bot.go`: true iff the member holds any of the
given roles. -/
def hasAnyRole (memberRoles : List String) (roles : List String) : Bool :=
  roles.any (fun role => roleListContains memberRoles role)

/-- Outcome of `updateMemberRoles`: success, the community-role grant
error, the guild-role grant error, or the runtime panic Go raises when
`cfg.GuildMemberRoleIDs[0]` is evaluated on an empty slice. -/
inductive RolesOutcome where
  | ok
  | errCommunity
  | errGuild
  | indexOutOfRange
deriving DecidableEq

/-- `updateMemberRoles` from `bot/bot.go`.  `grantOk r` tells whether the
Discord call `s.GuildMemberRoleAdd(guildID, userID, r)` succeeds.  The
first component of the result is the ordered list of role ids for which
that call was issued (the grant actions); the second is the outcome. -/
def updateMemberRoles (grantOk : String → Bool) (memberRoles : List String)
    (characterExists isInGuild : Bool) (cfg : BotConfig) :
    List String × RolesOutcome :=
  if !characterExists then
    ([], RolesOutcome.ok)
  else
    let hasCommunityRole := roleListContains memberRoles cfg.communityRoleID
    if !hasCommunityRole && !grantOk cfg.communityRoleID then
      ([cfg.communityRoleID], RolesOutcome.errCommunity)
    else
      let communityCalls := if hasCommunityRole then [] else [cfg.communityRoleID]
      if isInGuild && !hasAnyRole memberRoles cfg.guildMemberRoleIDs then
        match cfg.guildMemberRoleIDs with
        | [] => (communityCalls, RolesOutcome.indexOutOfRange)
        | g :: _ =>
          if grantOk g then (communityCalls ++ [g], RolesOutcome.ok)
          else (communityCalls ++ [g], RolesOutcome.errGuild)
      else (communityCalls, RolesOutcome.ok)

/-! ### Basic lemmas about role lists -/

theorem roleListContains_iff (l : List String) (r : String) :
    roleListContains l r = true ↔ r ∈ l := by
  simp [roleListContains, List.any_eq_true]

theorem roleListContains_append (l m : List String) (r : String) :
    roleListContains (l ++ m) r = (roleListContains l r || roleListContains m r) := by
  simp [roleListContains, List.any_append]

theorem hasAnyRole_iff (l rs : List String) :
    hasAnyRole l rs = true ↔ ∃ r ∈ rs, roleListContains l r = true := by
  simp [hasAnyRole, List.any_eq_true]

theorem roleListContains_singleton (x r : String) :
    roleListContains [x] r = (x == r) := by
  simp [roleListContains]

theorem roleListContains_cons (x : String) (l : List String) (r : String) :
    roleListContains (x :: l) r = ((x == r) || roleListContains l r) := by
  simp [roleListContains, List.any_cons]

theorem hasAnyRole_nil (l : List String) : hasAnyRole l [] = false := by
  simp [hasAnyRole]

theorem hasAnyRole_cons (l : List String) (r : String) (rs : List String) :
    hasAnyRole l (r :: rs) = (roleListContains l r || hasAnyRole l rs) := by
  simp [hasAnyRole, List.any_cons]

theorem hasAnyRole_append (l m rs : List String) :
    hasAnyRole (l ++ m) rs = (hasAnyRole l rs || hasAnyRole m rs) := by
  induction rs with
  | nil => simp [hasAnyRole]
  | cons r rs ih =>
    simp only [hasAnyRole_cons, roleListContains_append, ih]
    cases roleListContains l r <;> cases roleListContains m r <;>
      cases hasAnyRole l rs <;> cases hasAnyRole m rs <;> simp

theorem hasAnyRole_append_left (l m rs : List String)
    (h : hasAnyRole l rs = true) : hasAnyRole (l ++ m) rs = true := by
  simp [hasAnyRole_append, h]

theorem hasAnyRole_of_mem (l rs : List String) (r : String)
    (hr : r ∈ rs) (hc : roleListContains l r = true) :
    hasAnyRole l rs = true :=
  (hasAnyRole_iff l rs).2 ⟨r, hr, hc⟩

/-- Characterization of the grant list issued by `updateMemberRoles` when
every grant succeeds and the character exists. -/
theorem updateMemberRoles_grants (memberRoles : List String) (isInGuild : Bool)
    (cfg : BotConfig) :
    (updateMemberRoles (fun _ => true) memberRoles true isInGuild cfg).1 =
      (if roleListContains memberRoles cfg.communityRoleID then []
       else [cfg.communityRoleID]) ++
      (if isInGuild && !hasAnyRole memberRoles cfg.guildMemberRoleIDs then
        cfg.guildMemberRoleIDs.take 1
       else []) := by
  cases hcomm : roleListContains memberRoles cfg.communityRoleID <;>
    cases hg : isInGuild <;>
      cases hlist : cfg.guildMemberRoleIDs <;>
        cases hany : hasAnyRole memberRoles cfg.guildMemberRoleIDs <;>
          rw [hlist] at hany <;>
            simp [updateMemberRoles, hcomm, hany, hlist]

/-- C5: role reconciliation is idempotent.  For every role set, existence
flag and membership flag, running `updateMemberRoles` once (with every
grant succeeding), appending its grants to the role set, and running it
again yields an empty grant list the second time. -/
theorem updateMemberRoles_idempotent (memberRoles : List String)
    (characterExists isInGuild : Bool) (cfg : BotConfig) :
    (updateMemberRoles (fun _ => true)
      (memberRoles ++
        (updateMemberRoles (fun _ => true) memberRoles characterExists isInGuild
          cfg).1)
      characterExists isInGuild cfg).1 = [] := by
  cases characterExists with
  | false => simp [updateMemberRoles]
  | true =>
    rw [updateMemberRoles_grants, updateMemberRoles_grants]
    set c := cfg.communityRoleID with hcdef
    set gids := cfg.guildMemberRoleIDs with hgidsdef
    set cp := (if roleListContains memberRoles c then ([] : List String)
      else [c]) with hcp
    set gp := (if isInGuild && !hasAnyRole memberRoles gids then gids.take 1
      else ([] : List String)) with hgp
    have h1 : roleListContains (memberRoles ++ (cp ++ gp)) c = true := by
      rw [roleListContains_append, roleListContains_append]
      cases hcomm : roleListContains memberRoles c with
      | true => simp
      | false =>
        have : roleListContains cp c = true := by
          rw [hcp, hcomm]
          simp [roleListContains_singleton]
        simp [this]
    have h2 : (if isInGuild && !hasAnyRole (memberRoles ++ (cp ++ gp)) gids
        then gids.take 1 else ([] : List String)) = [] := by
      cases hg : isInGuild with
      | false => simp
      | true =>
        cases hany : hasAnyRole memberRoles gids with
        | true =>
          have : hasAnyRole (memberRoles ++ (cp ++ gp)) gids = true := by
            rw [hasAnyRole_append]; simp [hany]
          simp [this]
        | false =>
          have hgp1 : gp = gids.take 1 := by rw [hgp, hg, hany]; simp
          cases hgl : gids with
          | nil => simp [hgl]
          | cons g0 gs =>
            have hmem : hasAnyRole (memberRoles ++ (cp ++ gp)) (g0 :: gs) = true := by
              apply hasAnyRole_of_mem _ _ g0 (List.mem_cons_self _ _)
              rw [roleListContains_append, roleListContains_append]
              have : roleListContains gp g0 = true := by
                rw [hgp1, hgl]
                simp [roleListContains_singleton]
              simp [this]
            simp [hmem]
    rw [h1, h2]
    simp

/-- C6: grant policy of `updateMemberRoles`.  (1) If the character does
not exist, no grants are emitted at all.  (2) If it exists, the community
role is granted exactly when it is not already held.  (3) If additionally
the character is in the guild and none of the configured guild role ids
is held, exactly one guild-role grant is emitted, for the first
configured id. -/
theorem updateMemberRoles_grant_policy :
    (∀ (grantOk : String → Bool) (memberRoles : List String) (isInGuild : Bool)
        (cfg : BotConfig),
        (updateMemberRoles grantOk memberRoles false isInGuild cfg).1 = []) ∧
    (∀ (memberRoles : List String) (isInGuild : Bool) (cfg : BotConfig),
        cfg.communityRoleID ∈
            (updateMemberRoles (fun _ => true) memberRoles true isInGuild cfg).1 ↔
          roleListContains memberRoles cfg.communityRoleID = false) ∧
    (∀ (memberRoles : List String) (cfg : BotConfig) (g0 : String)
        (gs : List String),
        cfg.guildMemberRoleIDs = g0 :: gs →
        hasAnyRole memberRoles cfg.guildMemberRoleIDs = false →
        (updateMemberRoles (fun _ => true) memberRoles true true cfg).1 =
          (if roleListContains memberRoles cfg.communityRoleID then []
           else [cfg.communityRoleID]) ++ [g0]) := by
  refine ⟨?_, ?_, ?_⟩
  · intro grantOk memberRoles isInGuild cfg
    simp [updateMemberRoles]
  · intro memberRoles isInGuild cfg
    rw [updateMemberRoles_grants]
    cases hcomm : roleListContains memberRoles cfg.communityRoleID with
    | false => simp
    | true =>
      simp only [hcomm, if_pos, List.nil_append, Bool.true_eq_false, iff_false]
      intro hmem
      cases hcond : (isInGuild && !hasAnyRole memberRoles cfg.guildMemberRoleIDs) with
      | false => rw [hcond] at hmem; simp at hmem
      | true =>
        rw [hcond] at hmem
        simp only [if_pos] at hmem
        have hcg : cfg.communityRoleID ∈ cfg.guildMemberRoleIDs :=
          List.take_subset 1 _ hmem
        have htrue : hasAnyRole memberRoles cfg.guildMemberRoleIDs = true :=
          hasAnyRole_of_mem _ _ _ hcg hcomm
        simp only [Bool.and_eq_true, Bool.not_eq_true'] at hcond
        rw [htrue] at hcond
        exact absurd hcond.2 (by simp)
  · intro memberRoles cfg g0 gs hlist hany
    rw [updateMemberRoles_grants, hlist]
    rw [hlist] at hany
    simp [hany]

/-- Witness for C6 at a concrete input: a member holding neither the
community role nor any guild role, with an existing character in the
guild, receives exactly the community role and the first guild role. -/
theorem updateMemberRoles_grant_policy_witness :
    (updateMemberRoles (fun _ => true) ["other"] true true
      ⟨"community", ["guild1", "guild2"]⟩).1 = ["community", "guild1"] := by
  have h := updateMemberRoles_grant_policy.2.2 ["other"]
    ⟨"community", ["guild1", "guild2"]⟩ "guild1" ["guild2"] rfl (by decide)
  exact h.trans (by decide)

/-- C10: if the member lacks the community role and the community-role
grant fails, `updateMemberRoles` returns the community-grant error
immediately with the community role as the only attempted grant; the
guild-member role grant is never attempted. -/
theorem communityGrantFailure_short_circuits (grantOk : String → Bool)
    (memberRoles : List String) (isInGuild : Bool) (cfg : BotConfig)
    (hnot : roleListContains memberRoles cfg.communityRoleID = false)
    (hfail : grantOk cfg.communityRoleID = false) :
    updateMemberRoles grantOk memberRoles true isInGuild cfg =
      ([cfg.communityRoleID], RolesOutcome.errCommunity) := by
  simp [updateMemberRoles, hnot, hfail]

/-- Witness for C10 at a concrete input: with every grant failing, an
existing in-guild character whose member lacks the community role yields
exactly one attempted grant (the community role) and the community-grant
error. -/
theorem communityGrantFailure_short_circuits_witness :
    updateMemberRoles (fun _ => false) ["x"] true true
      ⟨"community", ["guild1"]⟩ =
      (["community"], RolesOutcome.errCommunity) :=
  communityGrantFailure_short_circuits (fun _ => false) ["x"] true
    ⟨"community", ["guild1"]⟩ (by decide) rfl

/-! ## Blizzard API client (`blizzard/blizzard.go`)

The remote provider is modelled by an oracle per HTTP request: the request
either fails at transport level (`client.Do` error), fails while the body
is read (`io.ReadAll` error), or yields a status code together with the
outcome of unmarshalling the body into the expected shape (`none` for a
body `json.Unmarshal` rejects). -/

/-- Parsed OAuth token response (`tokenResponse`). -/
structure TokenResponse where
  accessToken : String
  tokenType : String
  expiresIn : Int
deriving DecidableEq

/-- `Realm`. -/
structure Realm where
  name : String
  id : Int
  slug : String
deriving DecidableEq

/-- The anonymous faction struct embedded in `Guild`. -/
structure Faction where
  type : String
  name : String
deriving DecidableEq

/-- `Guild`. -/
structure Guild where
  name : String
  id : Int
  realm : Realm
  faction : Faction
deriving DecidableEq

/-- `CharacterSummary` (gender flattened to its two string fields). -/
structure CharacterSummary where
  name : String
  realm : Realm
  guild : Guild
  level : Int
  genderType : String
  genderName : String
  guildRank : Int
deriving DecidableEq

/-- One entry of `GuildRoster.Members`; also the shape of the
`GuildMember` value `GetGuildMemberInfo` copies a match into. -/
structure RosterMember where
  characterName : String
  characterRealm : Realm
  rank : Int
deriving DecidableEq

/-- `GuildRoster`. -/
structure GuildRoster where
  members : List RosterMember
deriving DecidableEq

/-- `GuildInfo`: simplified guild information (`Rank` is `-1` for
unknown). -/
structure GuildInfo where
  name : String
  rank : Int
  faction : String
deriving DecidableEq

/-- The fields of `BlizzardClient`.  `accessToken`/`tokenExpiry` form the
cached bearer credential; a fresh client has both zero-valued. -/
structure ClientState where
  clientID : String
  clientSecret : String
  accessToken : String
  tokenExpiry : Int
deriving DecidableEq

/-- Outcome of one HTTP request whose 200-body parses to `α`. -/
inductive HttpOutcome (α : Type) where
  | transportError
  | readError
  | response (status : Nat) (body : Option α)
deriving DecidableEq

/-- One constructor per distinct error return site in `blizzard.go` (the
Go errors are `fmt.Errorf` strings; the two status-carrying constructors
mirror the `%d` in the corresponding format strings). -/
inductive ApiError where
  | failedToGetToken
  | failedToReadTokenResponse
  | failedToParseTokenResponse
  | emptyRealmOrName
  | failedToGetCharacterInfo
  | failedToReadCharacterResponse
  | characterApiRequestFailed (status : Nat)
  | failedToParseCharacterResponse
  | failedToGetGuildRoster
  | failedToReadGuildRosterResponse
  | guildNotFoundOnRealm
  | rosterApiRequestFailed (status : Nat)
  | failedToParseGuildRosterResponse
deriving DecidableEq

/-- A remote request issued by the client, with the path arguments that
identify it. -/
inductive RemoteCall where
  | tokenExchange
  | characterProfile (realmSlug characterNameLower : String)
  | guildRoster (realmSlug guildSlug : String)
deriving DecidableEq

/-- The fast-path test of `getAccessToken`:
`c.accessToken != "" && time.Now().Before(c.tokenExpiry)`. -/
def hasValidToken (st : ClientState) (now : Int) : Bool :=
  st.accessToken != "" && decide (now < st.tokenExpiry)

/-- The cache update performed after a parse-successful exchange:
`c.accessToken = token.AccessToken;`
`c.tokenExpiry = time.Now().Add(time.Duration(token.ExpiresIn-60) * time.Second)`. -/
def applyTokenResponse (st : ClientState) (now : Int) (tok : TokenResponse) :
    ClientState :=
  { st with accessToken := tok.accessToken,
            tokenExpiry := now + (tok.expiresIn - 60) }

/-- Result of one `getAccessToken` invocation: the client state after it,
the error (if any), and whether the underlying client-credential exchange
was performed. -/
structure TokenStep where
  state : ClientState
  error : Option ApiError
  exchanged : Bool
deriving DecidableEq

/-- `getAccessToken` from `blizzard.go`.  Note that the Go code never
inspects `resp.StatusCode` on this path, which is why the status carried
by a `response` outcome is ignored here: any response whose body
unmarshals is cached as a success. -/
def getAccessToken (st : ClientState) (now : Int)
    (tokenHttp : HttpOutcome TokenResponse) : TokenStep :=
  if hasValidToken st now then
    { state := st, error := none, exchanged := false }
  else
    match tokenHttp with
    | .transportError =>
      { state := st, error := some .failedToGetToken, exchanged := true }
    | .readError =>
      { state := st, error := some .failedToReadTokenResponse, exchanged := true }
    | .response _ none =>
      { state := st, error := some .failedToParseTokenResponse, exchanged := true }
    | .response _ (some tok) =>
      { state := applyTokenResponse st now tok, error := none, exchanged := true }

/-- Result of an API operation: final client state, trace of remote calls
issued, and the domain result or error. -/
structure CallResult (α : Type) where
  state : ClientState
  calls : List RemoteCall
  result : Except ApiError α

/-- `GetCharacterGuild` from `blizzard.go`: obtain a token, slugify the
inputs, validate non-emptiness, fetch the character profile; 404 maps to
`none` (not found), other non-200 to an error carrying the status, an
empty guild name on 200 to `none` (guildless). -/
def GetCharacterGuild (st : ClientState) (now : Int)
    (characterName realm : String)
    (tokenHttp : HttpOutcome TokenResponse)
    (profileHttp : HttpOutcome CharacterSummary) : CallResult (Option Guild) :=
  let t := getAccessToken st now tokenHttp
  let tokenCalls : List RemoteCall :=
    if t.exchanged then [RemoteCall.tokenExchange] else []
  match t.error with
  | some e => { state := t.state, calls := tokenCalls, result := .error e }
  | none =>
    let realmSlug := slugify realm
    let characterNameLower := toLowerStr (trimStr characterName)
    if realmSlug == "" || characterNameLower == "" then
      { state := t.state, calls := tokenCalls, result := .error .emptyRealmOrName }
    else
      let calls := tokenCalls ++
        [RemoteCall.characterProfile realmSlug characterNameLower]
      match profileHttp with
      | .transportError =>
        { state := t.state, calls := calls, result := .error .failedToGetCharacterInfo }
      | .readError =>
        { state := t.state, calls := calls,
          result := .error .failedToReadCharacterResponse }
      | .response status body =>
        if status == 404 then
          { state := t.state, calls := calls, result := .ok none }
        else if status != 200 then
          { state := t.state, calls := calls,
            result := .error (.characterApiRequestFailed status) }
        else
          match body with
          | none =>
            { state := t.state, calls := calls,
              result := .error .failedToParseCharacterResponse }
          | some character =>
            if character.guild.name == "" then
              { state := t.state, calls := calls, result := .ok none }
            else
              { state := t.state, calls := calls, result := .ok (some character.guild) }

/-- The roster scan of `GetGuildMemberInfo`: first member whose name
matches case-insensitively (`break` after the first hit). -/
def findMemberLoop (characterNameLower : String) :
    List RosterMember → Option RosterMember
  | [] => none
  | m :: rest =>
    if toLowerStr m.characterName == characterNameLower then some m
    else findMemberLoop characterNameLower rest

/-- `GetGuildMemberInfo` from `blizzard.go`: obtain a token, slugify the
guild name, fetch the roster at `/data/wow/guild/{realmSlug}/{guildSlug}/roster`;
404 is the distinguished guild-not-found error, other non-200 a generic
API error; on 200 the roster is scanned for the character
(case-insensitively), `none` meaning not in the roster. -/
def GetGuildMemberInfo (st : ClientState) (now : Int)
    (characterName realmSlug guildName : String)
    (tokenHttp : HttpOutcome TokenResponse)
    (rosterHttp : HttpOutcome GuildRoster) : CallResult (Option RosterMember) :=
  let t := getAccessToken st now tokenHttp
  let tokenCalls : List RemoteCall :=
    if t.exchanged then [RemoteCall.tokenExchange] else []
  match t.error with
  | some e => { state := t.state, calls := tokenCalls, result := .error e }
  | none =>
    let guildSlug := slugify guildName
    let calls := tokenCalls ++ [RemoteCall.guildRoster realmSlug guildSlug]
    match rosterHttp with
    | .transportError =>
      { state := t.state, calls := calls, result := .error .failedToGetGuildRoster }
    | .readError =>
      { state := t.state, calls := calls,
        result := .error .failedToReadGuildRosterResponse }
    | .response status body =>
      if status != 200 then
        if status == 404 then
          { state := t.state, calls := calls, result := .error .guildNotFoundOnRealm }
        else
          { state := t.state, calls := calls,
            result := .error (.rosterApiRequestFailed status) }
      else
        match body with
        | none =>
          { state := t.state, calls := calls,
            result := .error .failedToParseGuildRosterResponse }
        | some roster =>
          { state := t.state, calls := calls,
            result := .ok (findMemberLoop (toLowerStr characterName) roster.members) }

/-- The realm slug `GetGuildInfo` hands to the membership lookup: the
guild's realm slug, falling back to a slug derived from the guild's realm
name when the API omitted the slug field. -/
def guildRealmSlugOf (guild : Guild) : String :=
  if guild.realm.slug == "" then slugify guild.realm.name else guild.realm.slug

/-- `GetGuildInfo` from `blizzard.go`: compose `GetCharacterGuild` and
`GetGuildMemberInfo` (the latter on the guild's realm slug).  A failed
membership lookup degrades to rank `-1` instead of failing; a missing
roster entry likewise yields rank `-1`. -/
def GetGuildInfo (st : ClientState) (now : Int) (characterName realm : String)
    (tokenHttp1 : HttpOutcome TokenResponse)
    (profileHttp : HttpOutcome CharacterSummary)
    (tokenHttp2 : HttpOutcome TokenResponse)
    (rosterHttp : HttpOutcome GuildRoster) : CallResult (Option GuildInfo) :=
  let r1 := GetCharacterGuild st now characterName realm tokenHttp1 profileHttp
  match r1.result with
  | .error e => { state := r1.state, calls := r1.calls, result := .error e }
  | .ok none => { state := r1.state, calls := r1.calls, result := .ok none }
  | .ok (some guild) =>
    let guildRealmSlug := guildRealmSlugOf guild
    let r2 := GetGuildMemberInfo r1.state now characterName guildRealmSlug
      guild.name tokenHttp2 rosterHttp
    match r2.result with
    | .error _ =>
      { state := r2.state, calls := r1.calls ++ r2.calls,
        result := .ok (some { name := guild.name, rank := -1,
                              faction := guild.faction.name }) }
    | .ok member =>
      let rank : Int := match member with
        | some m => m.rank
        | none => -1
      { state := r2.state, calls := r1.calls ++ r2.calls,
        result := .ok (some { name := guild.name, rank := rank,
                              faction := guild.faction.name }) }

/-- C1 fails on the code: `getAccessToken` never inspects the HTTP status
of the token response.  With an expired cached token `"oldtoken"` and a
`401` response whose JSON body parses (fields zero-valued, as
`json.Unmarshal` leaves absent fields), the refresh is treated as a
success (`error = none`) and the cache is overwritten with an empty token
and an already-past expiry (`200 + (0 - 60) = 140`), instead of failing
with an auth error and leaving the cached value untouched. -/
theorem getAccessToken_non2xx_treated_as_success :
    (getAccessToken ⟨"id", "secret", "oldtoken", 100⟩ 200
        (HttpOutcome.response 401 (some ⟨"", "", 0⟩))).error = none ∧
    (getAccessToken ⟨"id", "secret", "oldtoken", 100⟩ 200
        (HttpOutcome.response 401 (some ⟨"", "", 0⟩))).state =
      ⟨"id", "secret", "", 140⟩ ∧
    (⟨"id", "secret", "", 140⟩ : ClientState) ≠ ⟨"id", "secret", "oldtoken", 100⟩ := by
  refine ⟨by decide, by decide, by decide⟩

/-- C9: (1) with a cached non-empty token whose expiry is ahead of `now`,
`getAccessToken` returns it unchanged with no exchange; (2) a
parse-successful refresh stores the token value and
`expiry = now + declaredLifetime − 60`; (3) hence a refresh at `now1`
followed by a second call at any `now2 < now1 + lifetime − 60` performs
exactly one exchange in total and the second call observes the refreshed
state unchanged. -/
theorem token_fast_path_and_reuse :
    (∀ (st : ClientState) (now : Int) (o : HttpOutcome TokenResponse),
        st.accessToken ≠ "" → now < st.tokenExpiry →
        getAccessToken st now o =
          { state := st, error := none, exchanged := false }) ∧
    (∀ (st : ClientState) (now : Int) (status : Nat) (tok : TokenResponse),
        hasValidToken st now = false →
        (getAccessToken st now (.response status (some tok))).state.accessToken =
            tok.accessToken ∧
          (getAccessToken st now (.response status (some tok))).state.tokenExpiry =
            now + (tok.expiresIn - 60)) ∧
    (∀ (st : ClientState) (now1 now2 : Int) (status : Nat) (tok : TokenResponse)
        (o2 : HttpOutcome TokenResponse),
        hasValidToken st now1 = false → tok.accessToken ≠ "" →
        now2 < now1 + (tok.expiresIn - 60) →
        (getAccessToken st now1 (.response status (some tok))).exchanged = true ∧
        (getAccessToken st now1 (.response status (some tok))).error = none ∧
        getAccessToken
            (getAccessToken st now1 (.response status (some tok))).state now2 o2 =
          { state := (getAccessToken st now1 (.response status (some tok))).state,
            error := none, exchanged := false }) := by
  have hfast : ∀ (st : ClientState) (now : Int) (o : HttpOutcome TokenResponse),
      st.accessToken ≠ "" → now < st.tokenExpiry →
      getAccessToken st now o =
        { state := st, error := none, exchanged := false } := by
    intro st now o h1 h2
    have hv : hasValidToken st now = true := by
      simp [hasValidToken, bne_iff_ne, h1, h2]
    simp [getAccessToken, hv]
  refine ⟨hfast, ?_, ?_⟩
  · intro st now status tok h
    simp [getAccessToken, h, applyTokenResponse]
  · intro st now1 now2 status tok o2 h1 htok hwin
    have hstep : getAccessToken st now1 (.response status (some tok)) =
        { state := applyTokenResponse st now1 tok, error := none,
          exchanged := true } := by
      simp [getAccessToken, h1]
    refine ⟨by rw [hstep], by rw [hstep], ?_⟩
    rw [hstep]
    exact hfast _ _ _ (by simpa [applyTokenResponse] using htok)
      (by simpa [applyTokenResponse] using hwin)

/-- Witness for C9 at a concrete input: a fresh client refreshing at time
1000 with a declared lifetime of 1000 seconds does not exchange again at
time 1500. -/
theorem token_fast_path_and_reuse_witness :
    (getAccessToken ⟨"id", "s", "", 0⟩ 1000
        (HttpOutcome.response 200 (some ⟨"tok", "bearer", 1000⟩))).exchanged = true ∧
    (getAccessToken
        (getAccessToken ⟨"id", "s", "", 0⟩ 1000
          (HttpOutcome.response 200 (some ⟨"tok", "bearer", 1000⟩))).state 1500
        HttpOutcome.transportError).exchanged = false := by
  have h := token_fast_path_and_reuse.2.2 ⟨"id", "s", "", 0⟩ 1000 1500 200
    ⟨"tok", "bearer", 1000⟩ HttpOutcome.transportError (by decide) (by decide)
    (by decide)
  exact ⟨h.1, by rw [h.2.2]⟩

/-- C3 fails on the code as stated: `GetCharacterGuild` calls
`getAccessToken` before validating its inputs.  Concretely, with no
cached token and an empty realm, a token exchange is attempted (first
run: it succeeds and the distinct validation error is then returned;
second run: the exchange itself fails and an auth error, not a validation
error, is returned). -/
theorem emptyRealm_attempts_token_exchange :
    (GetCharacterGuild ⟨"id", "s", "", 0⟩ 100 "Arthas" ""
        (HttpOutcome.response 200 (some ⟨"tok", "bearer", 1000⟩))
        HttpOutcome.transportError).calls = [RemoteCall.tokenExchange] ∧
    (GetCharacterGuild ⟨"id", "s", "", 0⟩ 100 "Arthas" ""
        (HttpOutcome.response 200 (some ⟨"tok", "bearer", 1000⟩))
        HttpOutcome.transportError).result = .error .emptyRealmOrName ∧
    (GetCharacterGuild ⟨"id", "s", "", 0⟩ 100 "Arthas" ""
        HttpOutcome.transportError
        HttpOutcome.transportError).result = .error .failedToGetToken := by
  refine ⟨rfl, rfl, rfl⟩

/-- C3 as amended: for every input whose realm or character name trims to
empty, no character-profile request is ever issued, and whenever the
token step does not fail the lookup fails with the distinct validation
error `emptyRealmOrName`; a token exchange, however, may be attempted
first (see `emptyRealm_attempts_token_exchange`). -/
theorem emptyInput_validation_no_profile_call (st : ClientState) (now : Int)
    (characterName realm : String)
    (tokenHttp : HttpOutcome TokenResponse)
    (profileHttp : HttpOutcome CharacterSummary)
    (hempty : trimStr realm = "" ∨ trimStr characterName = "") :
    (∀ rs cn, RemoteCall.characterProfile rs cn ∉
        (GetCharacterGuild st now characterName realm tokenHttp
          profileHttp).calls) ∧
    ((getAccessToken st now tokenHttp).error = none →
      (GetCharacterGuild st now characterName realm tokenHttp
          profileHttp).result = .error .emptyRealmOrName) := by
  have hslug : (slugify realm == "" || toLowerStr (trimStr characterName) == "")
      = true := by
    rcases hempty with h | h
    · have h1 : (slugify realm == "") = true := by
        rw [slugify, h]; decide
      simp [h1]
    · have h1 : (toLowerStr (trimStr characterName) == "") = true := by
        rw [h]; decide
      simp [h1]
  cases herr : (getAccessToken st now tokenHttp).error with
  | some e =>
    constructor
    · intro rs cn hmem
      simp only [GetCharacterGuild, herr] at hmem
      cases hx : (getAccessToken st now tokenHttp).exchanged <;>
        rw [hx] at hmem <;> simp at hmem
    · intro hnone
      simp at hnone
  | none =>
    constructor
    · intro rs cn hmem
      simp only [GetCharacterGuild, herr, hslug] at hmem
      cases hx : (getAccessToken st now tokenHttp).exchanged <;>
        rw [hx] at hmem <;> simp at hmem
    · intro _
      simp [GetCharacterGuild, herr, hslug]

/-- Witness for the amended C3 at a concrete input: a blank realm with a
valid cached token yields the validation error, and no character-profile
request appears in the trace. -/
theorem emptyInput_validation_no_profile_call_witness :
    (GetCharacterGuild ⟨"id", "s", "tkn", 1000⟩ 100 "Arthas" "   "
        HttpOutcome.transportError HttpOutcome.transportError).result =
      .error .emptyRealmOrName ∧
    RemoteCall.characterProfile "stormrage" "arthas" ∉
      (GetCharacterGuild ⟨"id", "s", "tkn", 1000⟩ 100 "Arthas" "   "
        HttpOutcome.transportError HttpOutcome.transportError).calls := by
  have h := emptyInput_validation_no_profile_call ⟨"id", "s", "tkn", 1000⟩ 100
    "Arthas" "   " HttpOutcome.transportError HttpOutcome.transportError
    (Or.inl (by decide))
  exact ⟨h.2 (by decide), h.1 "stormrage" "arthas"⟩

/-- C7: for a valid, non-empty (after normalization) name/realm pair and
a successful token step, the character-profile lookup maps 404 to an
absent result, a 200 body whose guild name is empty to an absent result,
and any other non-200 status to an API error carrying that status. -/
theorem character_lookup_status_mapping (st : ClientState) (now : Int)
    (characterName realm : String) (tokenHttp : HttpOutcome TokenResponse)
    (status : Nat) (body : Option CharacterSummary)
    (htoken : (getAccessToken st now tokenHttp).error = none)
    (hrealm : (slugify realm == "") = false)
    (hname : (toLowerStr (trimStr characterName) == "") = false) :
    (status = 404 →
      (GetCharacterGuild st now characterName realm tokenHttp
        (.response status body)).result = .ok none) ∧
    (∀ ch, status = 200 → body = some ch → ch.guild.name = "" →
      (GetCharacterGuild st now characterName realm tokenHttp
        (.response status body)).result = .ok none) ∧
    (status ≠ 404 → status ≠ 200 →
      (GetCharacterGuild st now characterName realm tokenHttp
        (.response status body)).result =
        .error (.characterApiRequestFailed status)) := by
  refine ⟨?_, ?_, ?_⟩
  · intro h404
    subst h404
    simp [GetCharacterGuild, htoken, hrealm, hname]
  · intro ch h200 hbody hguild
    subst h200
    subst hbody
    simp [GetCharacterGuild, htoken, hrealm, hname, hguild]
  · intro h404 h200
    simp [GetCharacterGuild, htoken, hrealm, hname, h404, h200]

/-- Witness for C7 at a concrete input: a 404 for an existing-format
name/realm pair yields an absent result, and a 500 yields the API error
carrying 500. -/
theorem character_lookup_status_mapping_witness :
    (GetCharacterGuild ⟨"id", "s", "tkn", 1000⟩ 100 "Nobody" "Fakerealm"
        HttpOutcome.transportError (.response 404 none)).result = .ok none ∧
    (GetCharacterGuild ⟨"id", "s", "tkn", 1000⟩ 100 "Nobody" "Fakerealm"
        HttpOutcome.transportError (.response 500 none)).result =
      .error (.characterApiRequestFailed 500) := by
  constructor
  · exact (character_lookup_status_mapping ⟨"id", "s", "tkn", 1000⟩ 100 "Nobody"
      "Fakerealm" HttpOutcome.transportError 404 none (by decide) (by decide)
      (by decide)).1 rfl
  · exact (character_lookup_status_mapping ⟨"id", "s", "tkn", 1000⟩ 100 "Nobody"
      "Fakerealm" HttpOutcome.transportError 500 none (by decide) (by decide)
      (by decide)).2.2 (by decide) (by decide)

/-- The Go roster scan (first hit wins, then `break`) computes the
library first-match function. -/
theorem findMemberLoop_eq_find (nl : String) (ms : List RosterMember) :
    findMemberLoop nl ms =
      ms.find? (fun m => toLowerStr m.characterName == nl) := by
  induction ms with
  | nil => rfl
  | cons m rest ih =>
    cases h : (toLowerStr m.characterName == nl) with
    | true => simp [findMemberLoop, List.find?_cons, h]
    | false => simp [findMemberLoop, List.find?_cons, h, ih]

/-- C8: with a successful token step, the roster lookup returns the first
roster entry whose member name matches the queried name
case-insensitively (carrying that entry's rank), absent with no error
when no entry matches, the distinguished guild-not-found error on a 404
roster fetch, and the generic API error carrying the status on any other
non-200 status. -/
theorem roster_lookup_semantics (st : ClientState) (now : Int)
    (characterName realmSlug guildName : String)
    (tokenHttp : HttpOutcome TokenResponse) (status : Nat)
    (body : Option GuildRoster)
    (htoken : (getAccessToken st now tokenHttp).error = none) :
    (∀ roster, status = 200 → body = some roster →
      (GetGuildMemberInfo st now characterName realmSlug guildName tokenHttp
        (.response status body)).result =
        .ok (roster.members.find?
          (fun m => toLowerStr m.characterName == toLowerStr characterName))) ∧
    (∀ roster, status = 200 → body = some roster →
      (∀ m ∈ roster.members,
        ¬toLowerStr m.characterName = toLowerStr characterName) →
      (GetGuildMemberInfo st now characterName realmSlug guildName tokenHttp
        (.response status body)).result = .ok none) ∧
    (status = 404 →
      (GetGuildMemberInfo st now characterName realmSlug guildName tokenHttp
        (.response status body)).result = .error .guildNotFoundOnRealm) ∧
    (status ≠ 200 → status ≠ 404 →
      (GetGuildMemberInfo st now characterName realmSlug guildName tokenHttp
        (.response status body)).result =
        .error (.rosterApiRequestFailed status)) := by
  refine ⟨?_, ?_, ?_, ?_⟩
  · intro roster h200 hbody
    subst h200
    subst hbody
    simp [GetGuildMemberInfo, htoken, findMemberLoop_eq_find]
  · intro roster h200 hbody hnomatch
    subst h200
    subst hbody
    have hnone : roster.members.find?
        (fun m => toLowerStr m.characterName == toLowerStr characterName) =
          none := by
      rw [List.find?_eq_none]
      intro m hm
      simp [hnomatch m hm]
    simp [GetGuildMemberInfo, htoken, findMemberLoop_eq_find, hnone]
  · intro h404
    subst h404
    simp [GetGuildMemberInfo, htoken]
  · intro h200 h404
    simp [GetGuildMemberInfo, htoken, h200, h404]

/-- Witness for C8 at a concrete input: a two-entry roster in which the
query `"arthas"` matches the entry `"Arthas"` case-insensitively and the
first match's rank (3) is returned; a 404 roster fetch on the same inputs
yields the distinguished guild-not-found error. -/
theorem roster_lookup_semantics_witness :
    (GetGuildMemberInfo ⟨"id", "s", "tkn", 1000⟩ 100 "arthas" "cenarius"
        "Stand and Deliver" HttpOutcome.transportError
        (.response 200 (some ⟨[⟨"Jaina", ⟨"Cenarius", 1, "cenarius"⟩, 0⟩,
          ⟨"Arthas", ⟨"Cenarius", 1, "cenarius"⟩, 3⟩]⟩))).result =
      .ok (some ⟨"Arthas", ⟨"Cenarius", 1, "cenarius"⟩, 3⟩) ∧
    (GetGuildMemberInfo ⟨"id", "s", "tkn", 1000⟩ 100 "arthas" "cenarius"
        "Stand and Deliver" HttpOutcome.transportError
        (.response 404 none)).result = .error .guildNotFoundOnRealm := by
  constructor
  · have h := (roster_lookup_semantics ⟨"id", "s", "tkn", 1000⟩ 100 "arthas"
      "cenarius" "Stand and Deliver" HttpOutcome.transportError 200
      (some ⟨[⟨"Jaina", ⟨"Cenarius", 1, "cenarius"⟩, 0⟩,
        ⟨"Arthas", ⟨"Cenarius", 1, "cenarius"⟩, 3⟩]⟩) (by decide)).1
      ⟨[⟨"Jaina", ⟨"Cenarius", 1, "cenarius"⟩, 0⟩,
        ⟨"Arthas", ⟨"Cenarius", 1, "cenarius"⟩, 3⟩]⟩ rfl rfl
    rw [h]
    exact congrArg Except.ok (by decide)
  · exact (roster_lookup_semantics ⟨"id", "s", "tkn", 1000⟩ 100 "arthas"
      "cenarius" "Stand and Deliver" HttpOutcome.transportError 404 none
      (by decide)).2.2.1 rfl

/-- `GetCharacterGuild` issues at most a token exchange and one
character-profile request; in particular it never issues a roster
request. -/
theorem GetCharacterGuild_calls_shape (st : ClientState) (now : Int)
    (characterName realm : String) (tokenHttp : HttpOutcome TokenResponse)
    (profileHttp : HttpOutcome CharacterSummary) :
    ∀ c ∈ (GetCharacterGuild st now characterName realm tokenHttp
        profileHttp).calls,
      c = RemoteCall.tokenExchange ∨
        c = RemoteCall.characterProfile (slugify realm)
              (toLowerStr (trimStr characterName)) := by
  intro c hc
  have htc : ∀ x ∈ (if (getAccessToken st now tokenHttp).exchanged then
      ([RemoteCall.tokenExchange] : List RemoteCall) else []),
      x = RemoteCall.tokenExchange := by
    intro x hx
    cases hflag : (getAccessToken st now tokenHttp).exchanged <;>
      rw [hflag] at hx <;> simp at hx
    exact hx
  cases herr : (getAccessToken st now tokenHttp).error with
  | some e =>
    simp only [GetCharacterGuild, herr] at hc
    exact Or.inl (htc c hc)
  | none =>
    simp only [GetCharacterGuild, herr] at hc
    by_cases hv : (slugify realm == "" ||
        toLowerStr (trimStr characterName) == "") = true
    · rw [if_pos hv] at hc
      exact Or.inl (htc c hc)
    · rw [if_neg hv] at hc
      have hsplit : ∀ l : List RemoteCall,
          (∀ x ∈ l, x = RemoteCall.tokenExchange) → c ∈ l ++
            [RemoteCall.characterProfile (slugify realm)
              (toLowerStr (trimStr characterName))] →
          c = RemoteCall.tokenExchange ∨
            c = RemoteCall.characterProfile (slugify realm)
                  (toLowerStr (trimStr characterName)) := by
        intro l hl hmem
        rcases List.mem_append.1 hmem with hmem | hmem
        · exact Or.inl (hl c hmem)
        · simp at hmem
          exact Or.inr hmem
      cases profileHttp with
      | transportError => exact hsplit _ htc hc
      | readError => exact hsplit _ htc hc
      | response status body =>
        cases body <;> dsimp only at hc <;> (repeat' split at hc) <;>
          simp at hc <;> tauto

/-- `GetGuildMemberInfo` issues at most a token exchange and one roster
request, the latter always on the realm slug and (slugified) guild name
it was given. -/
theorem GetGuildMemberInfo_calls_shape (st : ClientState) (now : Int)
    (characterName realmSlug guildName : String)
    (tokenHttp : HttpOutcome TokenResponse)
    (rosterHttp : HttpOutcome GuildRoster) :
    ∀ c ∈ (GetGuildMemberInfo st now characterName realmSlug guildName
        tokenHttp rosterHttp).calls,
      c = RemoteCall.tokenExchange ∨
        c = RemoteCall.guildRoster realmSlug (slugify guildName) := by
  intro c hc
  have htc : ∀ x ∈ (if (getAccessToken st now tokenHttp).exchanged then
      ([RemoteCall.tokenExchange] : List RemoteCall) else []),
      x = RemoteCall.tokenExchange := by
    intro x hx
    cases hflag : (getAccessToken st now tokenHttp).exchanged <;>
      rw [hflag] at hx <;> simp at hx
    exact hx
  have hsplit : ∀ l : List RemoteCall,
      (∀ x ∈ l, x = RemoteCall.tokenExchange) → c ∈ l ++
        [RemoteCall.guildRoster realmSlug (slugify guildName)] →
      c = RemoteCall.tokenExchange ∨
        c = RemoteCall.guildRoster realmSlug (slugify guildName) := by
    intro l hl hmem
    rcases List.mem_append.1 hmem with hmem | hmem
    · exact Or.inl (hl c hmem)
    · simp at hmem
      exact Or.inr hmem
  cases herr : (getAccessToken st now tokenHttp).error with
  | some e =>
    simp only [GetGuildMemberInfo, herr] at hc
    exact Or.inl (htc c hc)
  | none =>
    simp only [GetGuildMemberInfo, herr] at hc
    cases rosterHttp with
    | transportError => exact hsplit _ htc hc
    | readError => exact hsplit _ htc hc
    | response status body =>
      cases body <;> dsimp only at hc <;> (repeat' split at hc) <;>
        simp at hc <;> tauto

/-- C4: when the guild lookup finds a guild and the subsequent membership
(roster) lookup fails, `GetGuildInfo` still returns the guild's name and
faction with rank `-1` (unknown) and no error; and every roster request
in the composed call trace uses the guild's realm slug (with the
slug-of-realm-name fallback), never the caller-supplied realm. -/
theorem guildInfo_degrades_on_membership_failure (st : ClientState)
    (now : Int) (characterName realm : String)
    (o1 : HttpOutcome TokenResponse) (o2 : HttpOutcome CharacterSummary)
    (o3 : HttpOutcome TokenResponse) (o4 : HttpOutcome GuildRoster)
    (guild : Guild) (e : ApiError)
    (hguild : (GetCharacterGuild st now characterName realm o1 o2).result =
      .ok (some guild))
    (hmem : (GetGuildMemberInfo
        (GetCharacterGuild st now characterName realm o1 o2).state now
        characterName (guildRealmSlugOf guild) guild.name o3 o4).result =
      .error e) :
    (GetGuildInfo st now characterName realm o1 o2 o3 o4).result =
      .ok (some { name := guild.name, rank := -1,
                  faction := guild.faction.name }) ∧
    ∀ rs gs, RemoteCall.guildRoster rs gs ∈
        (GetGuildInfo st now characterName realm o1 o2 o3 o4).calls →
      rs = guildRealmSlugOf guild ∧ gs = slugify guild.name := by
  constructor
  · simp only [GetGuildInfo, hguild, hmem]
  · intro rs gs hc
    simp only [GetGuildInfo, hguild, hmem] at hc
    rcases List.mem_append.1 hc with hc | hc
    · rcases GetCharacterGuild_calls_shape st now characterName realm o1 o2 _
        hc with h | h <;> cases h
    · rcases GetGuildMemberInfo_calls_shape _ now characterName
        (guildRealmSlugOf guild) guild.name o3 o4 _ hc with h | h
      · cases h
      · exact ⟨congrArg (fun c => match c with
          | RemoteCall.guildRoster r _ => r
          | _ => rs) h,
          congrArg (fun c => match c with
          | RemoteCall.guildRoster _ g => g
          | _ => gs) h⟩

/-- Witness for C4 at a concrete input: the guild is found (its realm
slug field empty, so the lookup falls back to the slug derived from the
realm name), the roster fetch 404s, and the call still returns the guild
name and faction with rank `-1`. -/
theorem guildInfo_degrades_on_membership_failure_witness :
    (GetGuildInfo ⟨"id", "s", "tkn", 1000⟩ 100 "Arthas" "Cenarius"
        HttpOutcome.transportError
        (.response 200 (some ⟨"Arthas", ⟨"Cenarius", 1, "cenarius"⟩,
          ⟨"Stand and Deliver", 70395110, ⟨"Cenarius", 1, ""⟩,
            ⟨"ALLIANCE", "Alliance"⟩⟩, 80, "MALE", "Male", 0⟩))
        HttpOutcome.transportError
        (.response 404 none)).result =
      .ok (some ⟨"Stand and Deliver", -1, "Alliance"⟩) :=
  (guildInfo_degrades_on_membership_failure ⟨"id", "s", "tkn", 1000⟩ 100
    "Arthas" "Cenarius" HttpOutcome.transportError
    (.response 200 (some ⟨"Arthas", ⟨"Cenarius", 1, "cenarius"⟩,
      ⟨"Stand and Deliver", 70395110, ⟨"Cenarius", 1, ""⟩,
        ⟨"ALLIANCE", "Alliance"⟩⟩, 80, "MALE", "Male", 0⟩))
    HttpOutcome.transportError (.response 404 none)
    ⟨"Stand and Deliver", 70395110, ⟨"Cenarius", 1, ""⟩,
      ⟨"ALLIANCE", "Alliance"⟩⟩
    ApiError.guildNotFoundOnRealm rfl rfl).1

/-! ## Concurrency model for the token cache

`BlizzardClient` holds no lock: `getAccessToken` reads
`c.accessToken`/`c.tokenExpiry` (the expiry check) and later writes both
fields (the cache update) with no synchronization, while Discord message
handlers run on separate goroutines sharing the one client.  The model
below splits `getAccessToken` into its two phases — the expiry check and
the exchange-plus-cache-write — exactly as embedded in `hasValidToken`
and `applyTokenResponse`, and lets two callers interleave them. -/

/-- Program counter of one caller inside `getAccessToken`: not yet
started, past a failed expiry check (about to exchange), or returned with
the token value it observed. -/
inductive CallerPC where
  | start
  | refreshing
  | done (observedToken : String)
deriving DecidableEq

/-- Shared token cache plus the two callers and the count of
client-credential exchanges performed. -/
structure ConcState where
  shared : ClientState
  pcA : CallerPC
  pcB : CallerPC
  exchanges : Nat
deriving DecidableEq

/-- The two concurrent callers. -/
inductive CallerId where
  | A
  | B
deriving DecidableEq

/-- One atomic phase of one caller: from `start`, run the expiry check
(`hasValidToken`) against the shared cache — valid means return the
cached token, invalid means proceed to refresh; from `refreshing`,
perform the exchange (receiving `tok`) and publish it with
`applyTokenResponse`.  Returns the new shared cache, the caller's new
program counter, and the number of exchanges performed (0 or 1). -/
def stepPC (now : Int) (tok : TokenResponse) (shared : ClientState) :
    CallerPC → ClientState × CallerPC × Nat
  | .start =>
    if hasValidToken shared now then (shared, .done shared.accessToken, 0)
    else (shared, .refreshing, 0)
  | .refreshing =>
    (applyTokenResponse shared now tok, .done tok.accessToken, 1)
  | .done s => (shared, .done s, 0)

/-- Run one phase of the named caller (`tokA`/`tokB` are the token
responses the provider would hand each caller's own exchange). -/
def stepConc (now : Int) (tokA tokB : TokenResponse) (cs : ConcState) :
    CallerId → ConcState
  | .A =>
    let r := stepPC now tokA cs.shared cs.pcA
    { cs with shared := r.1, pcA := r.2.1, exchanges := cs.exchanges + r.2.2 }
  | .B =>
    let r := stepPC now tokB cs.shared cs.pcB
    { cs with shared := r.1, pcB := r.2.1, exchanges := cs.exchanges + r.2.2 }

/-- Execute a schedule (an interleaving) of caller phases. -/
def runSchedule (now : Int) (tokA tokB : TokenResponse) :
    ConcState → List CallerId → ConcState
  | cs, [] => cs
  | cs, who :: rest =>
    runSchedule now tokA tokB (stepConc now tokA tokB cs who) rest

/-- Coherence of the model: a caller that runs its phases back to back
(no interleaving) computes exactly the sequential `getAccessToken`. -/
theorem runSchedule_solo_eq_getAccessToken (st : ClientState) (now : Int)
    (status : Nat) (tokA tokB : TokenResponse) :
    (runSchedule now tokA tokB ⟨st, .start, .start, 0⟩
        [CallerId.A, CallerId.A]).shared =
      (getAccessToken st now (.response status (some tokA))).state ∧
    (runSchedule now tokA tokB ⟨st, .start, .start, 0⟩
        [CallerId.A, CallerId.A]).exchanges =
      (if (getAccessToken st now (.response status (some tokA))).exchanged
        then 1 else 0) := by
  cases hv : hasValidToken st now <;>
    simp [runSchedule, stepConc, stepPC, getAccessToken, hv]

/-- C2 fails on the code: `BlizzardClient` has no mutex, so the schedule
in which both callers run the expiry check before either publishes is a
legal interleaving.  Starting from an empty cache, that schedule performs
two client-credential exchanges (not one), and the two callers observe
the two different tokens their own exchanges returned. -/
theorem concurrent_getAccessToken_double_exchange :
    (runSchedule 100 ⟨"tokenA", "bearer", 1000⟩ ⟨"tokenB", "bearer", 1000⟩
        ⟨⟨"id", "secret", "", 0⟩, .start, .start, 0⟩
        [CallerId.A, CallerId.B, CallerId.A, CallerId.B]).exchanges = 2 ∧
    (runSchedule 100 ⟨"tokenA", "bearer", 1000⟩ ⟨"tokenB", "bearer", 1000⟩
        ⟨⟨"id", "secret", "", 0⟩, .start, .start, 0⟩
        [CallerId.A, CallerId.B, CallerId.A, CallerId.B]).pcA =
      .done "tokenA" ∧
    (runSchedule 100 ⟨"tokenA", "bearer", 1000⟩ ⟨"tokenB", "bearer", 1000⟩
        ⟨⟨"id", "secret", "", 0⟩, .start, .start, 0⟩
        [CallerId.A, CallerId.B, CallerId.A, CallerId.B]).pcB =
      .done "tokenB" ∧
    ("tokenA" : String) ≠ "tokenB" := by
  refine ⟨by decide, by decide, by decide, by decide⟩

end Sndbot
